import Mathlib

/-!
Verification of `cellbender/base_cli.py` (CellBender's command-line dispatcher).

This file gives a shallow embedding of the module: the version provider
(`read` / `get_version`), the convention-based tool registry
(`generate_cli_dictionary`), the argument-surface builder
(`get_populated_argparser`), the dispatcher (`main`) and the programmatic
entry point (`run_cellbender_from_python`), together with theorems settling
the specification claims about them.

Modelling conventions:
* Python strings read from files are modelled as `List Char`; `str.splitlines`
  is modelled by `pySplitlines`, including Python's full set of line-boundary
  characters and the `"\r\n"` single-boundary rule.
* The ambient interpreter state (the files next to the module, and the
  importable `cellbender.<tool>.cli` / `cellbender.<tool>.argparser` modules)
  is an explicit `Env` parameter; the module-level global `TOOL_NAME_LIST`
  is threaded as an explicit parameter into the functions that read it, and
  the concrete source value is the constant `TOOL_NAME_LIST` below.
* Exceptions are modelled with `Except PyErr`; `SystemExit` raised by
  argparse (version action, usage errors) is an `Outcome` of the dispatcher.
* Calls into tool code (`validate_args`, `run`) are recorded in an event
  trace so that "run is called exactly once, on tool T" is a statement about
  the trace of `main`.
-/

namespace Cellbender

/-- Python exceptions that can surface from the code in `base_cli.py`. -/
inductive PyErr where
  | fileNotFound (path : String)
  | indexError
  | moduleNotFound (modName : String)
  | attributeError (objName attrName : String)
  | keyError (key : String)
  | validationError (msg : String)
  | otherError (msg : String)
deriving DecidableEq

/-- The parsed `argparse.Namespace`: the reserved `tool` field (`dest="tool"`
of the sub-parsers, `None` when no sub-command was selected) plus the
tool-specific fields, which are opaque to the dispatcher. -/
structure Namespace where
  tool : Option String
  fields : List (String × String)
deriving DecidableEq

/-- An instantiated tool object (`module_cli.CLI()`).  The three `has*` flags
record which of the `AbstractCLI` capabilities the instance actually exposes
(attribute lookup on a missing one raises `AttributeError`); `instName` is the
name of its Python type (used for structural comparison of registries). -/
structure CLIInstance where
  instName : String
  hasGetName : Bool
  hasValidateArgs : Bool
  hasRun : Bool
  getNameImpl : String
  validate : Namespace → Except PyErr Namespace
  runTool : Namespace → Except PyErr Unit

/-- Capability check for the `AbstractCLI` contract: the instance exposes
`get_name`, `validate_args` and `run`.  (The source never performs this
check; it is defined here so theorems can talk about it.) -/
def satisfiesContract (i : CLIInstance) : Bool :=
  i.hasGetName && i.hasValidateArgs && i.hasRun

/-- The class object `CLI` found in a tool's `cli` module.  `construct` is the
zero-argument instantiation `CLI()`; it may raise (for example `TypeError`
when an `AbstractCLI` subclass leaves an abstract method unimplemented). -/
structure CLIClass where
  construct : Except PyErr CLIInstance

/-- A loaded `cellbender.<tool>.cli` module: it may or may not expose the
conventional `CLI` symbol. -/
structure CliModule where
  CLI : Option CLIClass

/-- One sub-command registered on the shared sub-parsers object: its name,
its flag strings, and its own parsing of the remaining command-line words
(`none` models an argparse usage error inside the sub-parser). -/
structure SubCommand where
  name : String
  flags : List String
  subParse : List String → Option (List (String × String))

/-- A loaded `cellbender.<tool>.argparser` module, exposing
`add_subparser_args`, which receives the sub-parsers object and returns it
after registering the tool's sub-command. -/
structure ArgModule where
  add_subparser_args : List SubCommand → List SubCommand

/-- The interpreter environment the module runs in: the text files reachable
from the package directory, and the importable `cli` / `argparser` modules,
keyed by their full dotted module path. -/
structure Env where
  files : String → Option (List Char)
  cliModules : String → Option CliModule
  argparserModules : String → Option ArgModule

/-- The module-level global `TOOL_NAME_LIST = ['remove-background']`. -/
def TOOL_NAME_LIST : List String := ["remove-background"]

/-- Python line-boundary characters recognised by `str.splitlines`. -/
def lineBoundaryChars : List Char :=
  ['\n', '\r', '\x0B', '\x0C', '\x1C', '\x1D', '\x1E',
   Char.ofNat 0x85, Char.ofNat 0x2028, Char.ofNat 0x2029]

/-- Whether a character terminates a line for `str.splitlines`. -/
def isLineBoundary (c : Char) : Bool := lineBoundaryChars.contains c

/-- Accumulator worker for `pySplitlines`: `cur` is the line read so far.
A boundary character emits `cur` and starts a fresh line, with `"\r\n"`
consumed as a single boundary; at the end of the content the current line is
emitted only if it is non-empty (so content ending in a boundary produces no
trailing empty line). -/
def pySplitAux : List Char → List Char → List (List Char)
  | cur, [] => if cur.isEmpty then [] else [cur]
  | cur, '\r' :: '\n' :: cs => cur :: pySplitAux [] cs
  | cur, c :: cs =>
    if isLineBoundary c then cur :: pySplitAux [] cs
    else pySplitAux (cur ++ [c]) cs

/-- Model of Python's `str.splitlines`: splits at every line boundary
character, treating `"\r\n"` as a single boundary, and does not produce a
trailing empty line for content ending in a boundary. -/
def pySplitlines (content : List Char) : List (List Char) :=
  pySplitAux [] content

/-- The module's `read(rel_path)`: opens the file next to the installed
module and returns its content; a missing file raises `FileNotFoundError`
from `codecs.open`. -/
def read (env : Env) (relPath : String) : Except PyErr (List Char) :=
  match env.files relPath with
  | none => .error (.fileNotFound relPath)
  | some content => .ok content

/-- The module's `get_version()`: `read('VERSION.txt').splitlines()[0]`.
Indexing an empty line list raises `IndexError`. -/
def get_version (env : Env) : Except PyErr (List Char) :=
  match read env "VERSION.txt" with
  | .error e => .error e
  | .ok content =>
    match pySplitlines content with
    | [] => .error .indexError
    | l :: _ => .ok l

theorem pySplitAux_head :
    ∀ (cur cs : List Char), cs ≠ [] →
      (pySplitAux cur cs).head? =
        some (cur ++ cs.takeWhile (fun x => !isLineBoundary x)) := by
  intro cur cs
  induction cur, cs using pySplitAux.induct with
  | case1 cur h => intro hne; exact absurd rfl hne
  | case2 cur h => intro hne; exact absurd rfl hne
  | case3 cur cs ih =>
    intro _
    rw [pySplitAux.eq_2]
    have hb : isLineBoundary '\r' = true := by decide
    simp [List.takeWhile_cons, hb]
  | case4 cur c cs h1 hb ih =>
    intro _
    rw [pySplitAux.eq_3 cur c cs h1, if_pos hb]
    simp [List.takeWhile_cons, hb]
  | case5 cur c cs h1 hb ih =>
    intro _
    rw [pySplitAux.eq_3 cur c cs h1, if_neg hb]
    rw [Bool.not_eq_true] at hb
    rcases cs with _ | ⟨c2, cs2⟩
    · rw [pySplitAux.eq_1]
      simp [List.takeWhile_cons, hb]
    · have hih := ih (by simp)
      rw [hih]
      simp [List.takeWhile_cons, hb]

theorem pySplitlines_head (c : Char) (cs : List Char) :
    (pySplitlines (c :: cs)).head? =
      some ((c :: cs).takeWhile (fun x => !isLineBoundary x)) := by
  have h := pySplitAux_head [] (c :: cs) (by simp)
  simpa [pySplitlines] using h

theorem pySplitlines_ne_nil (c : Char) (cs : List Char) :
    pySplitlines (c :: cs) ≠ [] := by
  intro hx
  have h := pySplitlines_head c cs
  rw [hx] at h
  simp at h

/-- If the version file is present with non-empty content, `get_version`
returns the first line, with no line-boundary characters in it. -/
theorem get_version_of_content (env : Env) (content : List Char)
    (hfile : env.files "VERSION.txt" = some content) (hne : content ≠ []) :
    get_version env = .ok (content.takeWhile (fun x => !isLineBoundary x)) := by
  obtain ⟨c, cs, rfl⟩ : ∃ c cs, content = c :: cs := by
    cases content with
    | nil => exact absurd rfl hne
    | cons c cs => exact ⟨c, cs, rfl⟩
  have hh := pySplitlines_head c cs
  have hread : read env "VERSION.txt" = .ok (c :: cs) := by
    unfold read
    rw [hfile]
  unfold get_version
  rw [hread]
  show (match pySplitlines (c :: cs) with
        | [] => Except.error PyErr.indexError
        | l :: _ => Except.ok l) =
      Except.ok (List.takeWhile (fun x => !isLineBoundary x) (c :: cs))
  rcases hx : pySplitlines (c :: cs) with _ | ⟨l, ls⟩
  · exact absurd hx (pySplitlines_ne_nil c cs)
  · rw [hx] at hh
    simp only [List.head?_cons, Option.some.injEq] at hh
    simp [hh]

/-- Python's `tool_name.replace("-", "_")`.  Since the pattern is the single
character `"-"`, `str.replace` is exactly a per-character substitution. -/
def dashToUnderscore (s : String) : String :=
  String.mk (s.data.map (fun c => if c = '-' then '_' else c))

/-- The dotted module path `'.'.join(["cellbender", tool_name.replace("-", "_"), "cli"])`. -/
def cliModuleName (toolName : String) : String :=
  String.intercalate "." ["cellbender", dashToUnderscore toolName, "cli"]

/-- The dotted module path `'.'.join(["cellbender", tool_name.replace("-", "_"), "argparser"])`. -/
def argModuleName (toolName : String) : String :=
  String.intercalate "." ["cellbender", dashToUnderscore toolName, "argparser"]

/-- A value stored in the registry dictionary: the list bound to the `"keys"`
entry created by `dict(keys=TOOL_NAME_LIST)`, or an instantiated tool. -/
inductive RegEntry where
  | keysEntry (names : List String)
  | tool (inst : CLIInstance)

/-- Python `dict` assignment `d[k] = v` on an insertion-ordered association
list: overwrite in place if the key exists, otherwise append. -/
def dictInsert (d : List (String × RegEntry)) (k : String) (v : RegEntry) :
    List (String × RegEntry) :=
  if d.any (fun e => e.1 == k) then
    d.map (fun e => if e.1 == k then (k, v) else e)
  else d ++ [(k, v)]

/-- Python `dict` lookup `d[k]`, `none` modelling a `KeyError`. -/
def dictFind (d : List (String × RegEntry)) (k : String) : Option RegEntry :=
  (d.find? (fun e => e.1 == k)).map (fun e => e.2)

/-- The `for tool_name in TOOL_NAME_LIST` loop of `generate_cli_dictionary`: it
imports `cellbender.<tool>.cli` (raising `ModuleNotFoundError` when absent),
fetch its `CLI` attribute (raising `AttributeError` when absent), instantiate
it with no arguments, and assign `cli_dict[tool_name]` — with no check that
the instance satisfies the `AbstractCLI` contract. -/
def buildDict (env : Env) : List String → List (String × RegEntry) →
    Except PyErr (List (String × RegEntry))
  | [], acc => .ok acc
  | t :: ts, acc =>
    match env.cliModules (cliModuleName t) with
    | none => .error (.moduleNotFound (cliModuleName t))
    | some m =>
      match m.CLI with
      | none => .error (.attributeError (cliModuleName t) "CLI")
      | some cls =>
        match cls.construct with
        | .error e => .error e
        | .ok inst => buildDict env ts (dictInsert acc t (.tool inst))

/-- The module's `generate_cli_dictionary()`: starts from
`dict(keys=TOOL_NAME_LIST)` — a dictionary whose single entry binds the key
`"keys"` to the tool-name list — then runs the import loop. -/
def generate_cli_dictionary (env : Env) (toolNames : List String) :
    Except PyErr (List (String × RegEntry)) :=
  buildDict env toolNames [("keys", .keysEntry toolNames)]

theorem dictInsert_of_not_mem (d : List (String × RegEntry)) (k : String)
    (v : RegEntry) (h : d.any (fun e => e.1 == k) = false) :
    dictInsert d k v = d ++ [(k, v)] := by
  simp only [dictInsert, h]
  simp

/-- When every tool in the list resolves to a zero-argument-constructible
`CLI` class producing `f t`, the registry loop appends one entry per tool in
declaration order.  No assumption is made about the instances satisfying the
`AbstractCLI` contract. -/
theorem buildDict_ok (env : Env) (f : String → CLIInstance) :
    ∀ (tools : List String) (acc : List (String × RegEntry)),
      (∀ t ∈ tools, env.cliModules (cliModuleName t) =
        some ⟨some ⟨.ok (f t)⟩⟩) →
      (∀ t ∈ tools, acc.any (fun e => e.1 == t) = false) →
      tools.Nodup →
      buildDict env tools acc =
        .ok (acc ++ tools.map (fun t => (t, RegEntry.tool (f t)))) := by
  intro tools
  induction tools with
  | nil =>
    intro acc _ _ _
    simp [buildDict]
  | cons t ts ih =>
    intro acc hres hacc hnd
    have h1 := hres t (by simp)
    simp only [buildDict, h1]
    rw [dictInsert_of_not_mem _ _ _ (hacc t (by simp))]
    rcases List.nodup_cons.mp hnd with ⟨htns, hnds⟩
    have h2 := ih (acc ++ [(t, RegEntry.tool (f t))])
      (fun u hu => hres u (by simp [hu]))
      (by
        intro u hu
        have hau := hacc u (by simp [hu])
        have hne : (t == u) = false := by
          rw [beq_eq_false_iff_ne]
          intro he
          exact htns (he ▸ hu)
        simp [List.any_append, hau, hne])
      hnds
    rw [h2]
    simp

/-- Running the registry loop over `pre ++ rest` when everything in `pre`
resolves reaches `rest` with some accumulated dictionary. -/
theorem buildDict_reaches (env : Env) (f : String → CLIInstance) :
    ∀ (pre : List String) (acc : List (String × RegEntry)),
      (∀ u ∈ pre, env.cliModules (cliModuleName u) = some ⟨some ⟨.ok (f u)⟩⟩) →
      ∀ (rest : List String), ∃ acc2,
        buildDict env (pre ++ rest) acc = buildDict env rest acc2 := by
  intro pre
  induction pre with
  | nil =>
    intro acc _ rest
    exact ⟨acc, rfl⟩
  | cons u us ih =>
    intro acc hres rest
    have h1 := hres u (by simp)
    simp only [List.cons_append, buildDict, h1]
    exact ih (dictInsert acc u (.tool (f u))) (fun w hw => hres w (by simp [hw])) rest

theorem dictFind_cons_ne (k0 : String) (v0 : RegEntry)
    (rest : List (String × RegEntry)) (t : String) (h : (k0 == t) = false) :
    dictFind ((k0, v0) :: rest) t = dictFind rest t := by
  simp [dictFind, List.find?, h]

/-- Looking up a declared tool in the entries appended by the registry loop
finds its instance. -/
theorem dictFind_map (f : String → CLIInstance) :
    ∀ (tools : List String) (t : String), tools.Nodup → t ∈ tools →
      dictFind (tools.map (fun u => (u, RegEntry.tool (f u)))) t =
        some (.tool (f t)) := by
  intro tools
  induction tools with
  | nil =>
    intro t _ ht
    simp at ht
  | cons u us ih =>
    intro t hnd ht
    rcases List.nodup_cons.mp hnd with ⟨hus, hnds⟩
    by_cases he : u = t
    · subst he
      simp [dictFind, List.find?]
    · have hne : (u == t) = false := by
        rw [beq_eq_false_iff_ne]
        exact he
      have htus : t ∈ us := by
        rcases List.mem_cons.mp ht with h | h
        · exact absurd h.symm he
        · exact h
      rw [List.map_cons, dictFind_cons_ne _ _ _ _ hne]
      exact ih t hnds htus

/-- The configuration passed to `parser.add_subparsers(...)`.  The source
passes `title`, `description` and `dest` only; argparse's default for the
omitted `required` parameter is `False`, so selecting a sub-command is not
enforced by the parser. -/
structure SubparserCfg where
  title : String
  description : String
  dest : String
  required : Bool
deriving DecidableEq

/-- The top-level `argparse.ArgumentParser` after population: program name,
description, the flag strings and version text of the version action, the
sub-parsers configuration, and the registered sub-commands. -/
structure ArgParser where
  prog : String
  description : String
  versionFlags : List String
  versionString : List Char
  subCfg : SubparserCfg
  subcommands : List SubCommand

/-- Result of `parser.parse_args`: the version action prints the version and
raises `SystemExit(0)`; a usage error prints usage and raises `SystemExit`
with a non-zero code; otherwise a namespace is produced. -/
inductive ParseOutcome where
  | versionExit (v : List Char)
  | usageError
  | parsed (ns : Namespace)
deriving DecidableEq

/-- Model of `parser.parse_args(args)` for the parser shapes this module
builds: the only top-level optionals are the version flags, so the first
word either triggers the version action, selects a registered sub-command
(whose own schema parses the remaining words), or is a usage error.  With no
words at all, an unselected sub-command is an error only when the
sub-parsers are `required`. -/
def parse_args (p : ArgParser) (args : List String) : ParseOutcome :=
  match args with
  | [] =>
    if p.subCfg.required then .usageError else .parsed ⟨none, []⟩
  | a :: rest =>
    if p.versionFlags.contains a then .versionExit p.versionString
    else
      match p.subcommands.find? (fun s => s.name == a) with
      | some sc =>
        match sc.subParse rest with
        | none => .usageError
        | some fields => .parsed ⟨some a, fields⟩
      | none => .usageError

/-- The `for tool_name in TOOL_NAME_LIST` loop of `get_populated_argparser`: it
imports `cellbender.<tool>.argparser` and rebinds the sub-parsers object to
the result of its `add_subparser_args`. -/
def addSubArgs (env : Env) : List String → List SubCommand →
    Except PyErr (List SubCommand)
  | [], subs => .ok subs
  | t :: ts, subs =>
    match env.argparserModules (argModuleName t) with
    | none => .error (.moduleNotFound (argModuleName t))
    | some m => addSubArgs env ts (m.add_subparser_args subs)

/-- The description string passed to `argparse.ArgumentParser`. -/
def cbDescription : String :=
  "CellBender is a software package for eliminating technical artifacts " ++
  "from high-throughput single-cell RNA sequencing (scRNA-seq) data."

/-- The module's `get_populated_argparser()`: builds the top-level parser
with `prog="cellbender"`, adds the `-v`/`--version` action (evaluating
`get_version()` eagerly, so its failures propagate here), declares
sub-parsers with `dest="tool"` (and argparse's default `required=False`),
then populates one sub-command schema per declared tool in order. -/
def get_populated_argparser (env : Env) (toolNames : List String) :
    Except PyErr ArgParser :=
  match get_version env with
  | .error e => .error e
  | .ok v =>
    match addSubArgs env toolNames [] with
    | .error e => .error e
    | .ok subs =>
      .ok { prog := "cellbender"
            description := cbDescription
            versionFlags := ["-v", "--version"]
            versionString := v
            subCfg := { title := "sub-commands"
                        description := "valid cellbender commands"
                        dest := "tool"
                        required := false }
            subcommands := subs }

/-- Observable calls and output of one dispatcher invocation, in order. -/
inductive Event where
  | helpPrinted
  | usagePrinted
  | versionPrinted (v : List Char)
  | validateCall (tool : String) (ns : Namespace)
  | runCall (tool : String) (ns : Namespace)
deriving DecidableEq

/-- How the dispatcher invocation ends at the process boundary: `main`
returns a code, argparse raises `SystemExit code`, or an exception
propagates uncaught (a non-zero process exit with a traceback). -/
inductive Outcome where
  | returns (code : Nat)
  | sysExit (code : Nat)
  | raised (e : PyErr)
deriving DecidableEq

/-- Whether the outcome is a non-zero process exit. -/
def exitsNonzero : Outcome → Bool
  | .returns c => c != 0
  | .sysExit c => c != 0
  | .raised _ => true

/-- Whether an event is a call to some tool's `run`. -/
def Event.isRunCall : Event → Bool
  | .runCall _ _ => true
  | _ => false

/-- The module's `main()`, over an explicit `sys.argv`.  Faithful points:
the parser and the registry are both built before `len(sys.argv) > 1` is
tested, so their failures pre-empt help; after a successful parse the code
runs `args = cli_dict[args.tool].validate_args(args)` and then
`cli_dict[args.tool].run(args)` — the second lookup uses the `tool` field of
the namespace returned by `validate_args`. -/
def main (env : Env) (toolNames : List String) (argv : List String) :
    List Event × Outcome :=
  match get_populated_argparser env toolNames with
  | .error e => ([], .raised e)
  | .ok p =>
    match generate_cli_dictionary env toolNames with
    | .error e => ([], .raised e)
    | .ok cliDict =>
      if 1 < argv.length then
        match parse_args p (argv.drop 1) with
        | .versionExit v => ([.versionPrinted v], .sysExit 0)
        | .usageError => ([.usagePrinted], .sysExit 2)
        | .parsed ns =>
          match ns.tool with
          | none => ([], .raised (.keyError "None"))
          | some t =>
            match dictFind cliDict t with
            | none => ([], .raised (.keyError t))
            | some (.keysEntry _) =>
              ([], .raised (.attributeError "list" "validate_args"))
            | some (.tool inst) =>
              if inst.hasValidateArgs then
                match inst.validate ns with
                | .error e => ([.validateCall t ns], .raised e)
                | .ok ns2 =>
                  match ns2.tool with
                  | none => ([.validateCall t ns], .raised (.keyError "None"))
                  | some t2 =>
                    match dictFind cliDict t2 with
                    | none => ([.validateCall t ns], .raised (.keyError t2))
                    | some (.keysEntry _) =>
                      ([.validateCall t ns], .raised (.attributeError "list" "run"))
                    | some (.tool inst2) =>
                      if inst2.hasRun then
                        match inst2.runTool ns2 with
                        | .error e =>
                          ([.validateCall t ns, .runCall t2 ns2], .raised e)
                        | .ok _ =>
                          ([.validateCall t ns, .runCall t2 ns2], .returns 0)
                      else
                        ([.validateCall t ns],
                          .raised (.attributeError inst2.instName "run"))
              else ([], .raised (.attributeError inst.instName "validate_args"))
      else ([.helpPrinted], .returns 0)

/-- The module's `run_cellbender_from_python(args_list)`: it rewrites
`sys.argv` to `['remove-background'] + args_list` and calls `main()`.  The
integer `main` returns is discarded by the wrapper, but the observable
events and the process-level outcome are those of `main`. -/
def run_cellbender_from_python (env : Env) (toolNames : List String)
    (argsList : List String) : List Event × Outcome :=
  main env toolNames ("remove-background" :: argsList)

/-- When every tool's `argparser` module is present and appends that tool's
sub-command, the population loop appends one sub-command per tool in
declaration order. -/
theorem addSubArgs_ok (env : Env) (sc : String → SubCommand) :
    ∀ (tools : List String) (subs : List SubCommand),
      (∀ t ∈ tools, env.argparserModules (argModuleName t) =
        some ⟨fun l => l ++ [sc t]⟩) →
      addSubArgs env tools subs = .ok (subs ++ tools.map sc) := by
  intro tools
  induction tools with
  | nil =>
    intro subs _
    simp [addSubArgs]
  | cons t ts ih =>
    intro subs hmods
    have h1 := hmods t (by simp)
    simp only [addSubArgs, h1]
    have h2 := ih (subs ++ [sc t]) (fun u hu => hmods u (by simp [hu]))
    rw [h2]
    simp

/-- Finding a declared tool's sub-command among the registered ones. -/
theorem find_subcommand (sc : String → SubCommand) :
    ∀ (tools : List String) (t : String), tools.Nodup →
      (∀ u ∈ tools, (sc u).name = u) → t ∈ tools →
      (tools.map sc).find? (fun s => s.name == t) = some (sc t) := by
  intro tools
  induction tools with
  | nil =>
    intro t _ _ ht
    simp at ht
  | cons u us ih =>
    intro t hnd hnames ht
    rcases List.nodup_cons.mp hnd with ⟨hus, hnds⟩
    by_cases he : u = t
    · subst he
      have hn := hnames u (by simp)
      simp [List.find?, hn]
    · have hn := hnames u (by simp)
      have hne : ((sc u).name == t) = false := by
        rw [hn, beq_eq_false_iff_ne]
        exact he
      have htus : t ∈ us := by
        rcases List.mem_cons.mp ht with h | h
        · exact absurd h.symm he
        · exact h
      simp only [List.map_cons, List.find?, hne]
      exact ih t hnds (fun w hw => hnames w (by simp [hw])) htus

/-! Concrete environments used to instantiate the theorems below.  `envGood`
is a fully conventional installation of the one declared tool;
the other environments each break one convention. -/

/-- Content of a well-formed `VERSION.txt`. -/
def versionChars : List Char := ['0', '.', '3', '.', '0', '\n']

/-- The sub-command the `remove-background` argparser module registers. -/
def rbSub : SubCommand :=
  { name := "remove-background"
    flags := ["--input", "--output"]
    subParse := fun _ => some [] }

/-- A conventional, contract-satisfying tool instance whose `validate_args`
returns the namespace unchanged and whose `run` returns normally. -/
def goodInst : CLIInstance :=
  { instName := "CLI"
    hasGetName := true
    hasValidateArgs := true
    hasRun := true
    getNameImpl := "remove-background"
    validate := fun ns => .ok ns
    runTool := fun _ => .ok () }

/-- An installation where every convention holds. -/
def envGood : Env :=
  { files := fun p => if p = "VERSION.txt" then some versionChars else none
    cliModules := fun m =>
      if m = "cellbender.remove_background.cli" then some ⟨some ⟨.ok goodInst⟩⟩
      else none
    argparserModules := fun m =>
      if m = "cellbender.remove_background.argparser" then
        some ⟨fun l => l ++ [rbSub]⟩
      else none }

/-- The parser `get_populated_argparser` produces in `envGood`. -/
def pGood : ArgParser :=
  { prog := "cellbender"
    description := cbDescription
    versionFlags := ["-v", "--version"]
    versionString := ['0', '.', '3', '.', '0']
    subCfg := { title := "sub-commands"
                description := "valid cellbender commands"
                dest := "tool"
                required := false }
    subcommands := [rbSub] }

/-- The registry `generate_cli_dictionary` produces in `envGood`. -/
def dGood : List (String × RegEntry) :=
  [("keys", .keysEntry TOOL_NAME_LIST), ("remove-background", .tool goodInst)]

theorem envGood_argp : get_populated_argparser envGood TOOL_NAME_LIST = .ok pGood := rfl

theorem envGood_dict : generate_cli_dictionary envGood TOOL_NAME_LIST = .ok dGood := rfl

/-- An installation whose `cellbender.remove_background.cli` module is
missing (the `argparser` module and the version file are fine). -/
def envNoRB : Env := { envGood with cliModules := fun _ => none }

/-- An installation whose `cli` module exists but exposes no `CLI` symbol. -/
def envNoCLI : Env :=
  { envGood with cliModules := fun m =>
      if m = "cellbender.remove_background.cli" then some ⟨none⟩ else none }

/-- An instance missing the `run` capability: it does not satisfy the
`AbstractCLI` contract. -/
def badInst : CLIInstance :=
  { instName := "CLI"
    hasGetName := true
    hasValidateArgs := true
    hasRun := false
    getNameImpl := "remove-background"
    validate := fun ns => .ok ns
    runTool := fun _ => .ok () }

/-- An installation whose `CLI()` produces an instance that does not satisfy
the contract. -/
def envBadInst : Env :=
  { envGood with cliModules := fun m =>
      if m = "cellbender.remove_background.cli" then some ⟨some ⟨.ok badInst⟩⟩
      else none }

/-- An instance whose `validate_args` returns normally but rewrites the
reserved `tool` field to a name that is not a registry key. -/
def rwInst : CLIInstance :=
  { instName := "CLI"
    hasGetName := true
    hasValidateArgs := true
    hasRun := true
    getNameImpl := "remove-background"
    validate := fun ns => .ok ⟨some "bogus", ns.fields⟩
    runTool := fun _ => .ok () }

/-- An installation whose tool's `validate_args` rewrites the `tool` field. -/
def envRW : Env :=
  { envGood with cliModules := fun m =>
      if m = "cellbender.remove_background.cli" then some ⟨some ⟨.ok rwInst⟩⟩
      else none }

/-- An instance whose `validate_args` always raises a validation error. -/
def valErrInst : CLIInstance :=
  { instName := "CLI"
    hasGetName := true
    hasValidateArgs := true
    hasRun := true
    getNameImpl := "remove-background"
    validate := fun _ => .error (.validationError "bad input")
    runTool := fun _ => .ok () }

/-- An installation whose tool rejects every argument namespace. -/
def envValErr : Env :=
  { envGood with cliModules := fun m =>
      if m = "cellbender.remove_background.cli" then some ⟨some ⟨.ok valErrInst⟩⟩
      else none }

/-- An installation with no version file at all. -/
def envNoVersion : Env :=
  { files := fun _ => none
    cliModules := fun _ => none
    argparserModules := fun _ => none }

/-- An installation whose version file exists but is completely empty. -/
def envEmptyVersion : Env :=
  { envGood with files := fun p => if p = "VERSION.txt" then some [] else none }

/-- Type name of a registry value, for structural registry comparison:
the `"keys"` artifact holds a Python `list`, tools hold their class. -/
def entryTypeName : RegEntry → String
  | .keysEntry _ => "list"
  | .tool i => i.instName

/-- When every declared tool resolves conventionally, the registry is the
`"keys"` artifact entry followed by one entry per declared tool in order. -/
theorem generate_dict_ok (env : Env) (f : String → CLIInstance)
    (tools : List String)
    (hres : ∀ t ∈ tools, env.cliModules (cliModuleName t) =
      some ⟨some ⟨.ok (f t)⟩⟩)
    (hnd : tools.Nodup) (hk : "keys" ∉ tools) :
    generate_cli_dictionary env tools =
      .ok (("keys", RegEntry.keysEntry tools) ::
        tools.map (fun t => (t, RegEntry.tool (f t)))) := by
  unfold generate_cli_dictionary
  have hacc : ∀ t ∈ tools,
      (([("keys", RegEntry.keysEntry tools)]).any (fun e => e.1 == t)) = false := by
    intro t ht
    have hne : ("keys" == t) = false := by
      rw [beq_eq_false_iff_ne]
      intro he
      exact hk (he ▸ ht)
    simp [hne]
  rw [buildDict_ok env f tools _ hres hacc hnd]
  simp

/-- C1 (amended): for every declared tool-name sequence with distinct names
not containing the literal `"keys"`, the registry built by
`generate_cli_dictionary` maps each declared ToolName, in declaration order,
to the instance constructed for it — but its key set additionally contains
the extra key `"keys"` (an artifact of `dict(keys=TOOL_NAME_LIST)`), bound
to the declared tool-name list, so the keys are not exactly the declared
tool names. -/
theorem C1_registry_keys_amended (env : Env) (f : String → CLIInstance)
    (tools : List String)
    (hres : ∀ t ∈ tools, env.cliModules (cliModuleName t) =
      some ⟨some ⟨.ok (f t)⟩⟩)
    (hnd : tools.Nodup) (hk : "keys" ∉ tools) :
    generate_cli_dictionary env tools =
      .ok (("keys", RegEntry.keysEntry tools) ::
        tools.map (fun t => (t, RegEntry.tool (f t)))) :=
  generate_dict_ok env f tools hres hnd hk

/-- C1 counterexample: in a fully conventional installation of the declared
tool list, the registry's key sequence is `["keys", "remove-background"]`,
and `"keys"` is not a declared tool name — so the keys are not exactly the
declared tool names. -/
theorem C1_counterexample :
    (generate_cli_dictionary envGood TOOL_NAME_LIST).map
        (fun d => d.map Prod.fst) =
      .ok ["keys", "remove-background"] ∧
    "keys" ∉ TOOL_NAME_LIST := by
  constructor
  · rfl
  · decide

/-- C1 witness: the amended statement evaluated in the conventional
installation. -/
theorem C1_witness :
    generate_cli_dictionary envGood TOOL_NAME_LIST =
      .ok (("keys", RegEntry.keysEntry TOOL_NAME_LIST) ::
        TOOL_NAME_LIST.map (fun t => (t, RegEntry.tool goodInst))) :=
  C1_registry_keys_amended envGood (fun _ => goodInst) TOOL_NAME_LIST
    (by
      intro t ht
      simp [TOOL_NAME_LIST] at ht
      subst ht
      rfl)
    (by decide) (by decide)

/-- C2 (amended): with an empty trailing process-argument list the
dispatcher prints the full help text and returns exit status 0, skipping
parsing, validation and run — provided parser and registry construction
both succeed.  A failure while building the registry propagates before the
empty-argument check and therefore does block printing help. -/
theorem C2_empty_args_help_amended :
    (∀ (env : Env) (tools : List String) (prog : String) (p : ArgParser)
        (d : List (String × RegEntry)),
      get_populated_argparser env tools = .ok p →
      generate_cli_dictionary env tools = .ok d →
      main env tools [prog] = ([.helpPrinted], .returns 0)) ∧
    (∀ (env : Env) (tools : List String) (prog : String) (p : ArgParser)
        (e : PyErr),
      get_populated_argparser env tools = .ok p →
      generate_cli_dictionary env tools = .error e →
      main env tools [prog] = ([], .raised e)) := by
  constructor
  · intro env tools prog p d hp hd
    simp [main, hp, hd]
  · intro env tools prog p e hp he
    simp [main, hp, he]

/-- C2 counterexample: in an installation whose `cli` module is missing the
parser still builds, yet invoking with zero trailing arguments does not
print help and does not exit 0 — the registry failure propagates first. -/
theorem C2_counterexample :
    main envNoRB TOOL_NAME_LIST ["cellbender"] =
      ([], .raised (.moduleNotFound "cellbender.remove_background.cli")) ∧
    main envNoRB TOOL_NAME_LIST ["cellbender"] ≠
      ([.helpPrinted], .returns 0) := by
  constructor
  · decide
  · decide

/-- C2 witness: both branches of the amended statement at concrete
installations. -/
theorem C2_witness :
    main envGood TOOL_NAME_LIST ["cellbender"] =
      ([Event.helpPrinted], Outcome.returns 0) ∧
    main envNoRB TOOL_NAME_LIST ["cellbender"] =
      ([], Outcome.raised
        (PyErr.moduleNotFound "cellbender.remove_background.cli")) :=
  ⟨C2_empty_args_help_amended.1 envGood TOOL_NAME_LIST "cellbender"
      pGood dGood envGood_argp envGood_dict,
   C2_empty_args_help_amended.2 envNoRB TOOL_NAME_LIST "cellbender"
      pGood (.moduleNotFound "cellbender.remove_background.cli") rfl rfl⟩

/-- C3 (amended): registry construction instantiates the conventionally
resolved `CLI` symbol with no constructor arguments; a missing module makes
it fail with `ModuleNotFoundError`, and an absent `CLI` symbol with
`AttributeError` (the spec's `ToolResolutionError`s).  However, no
capability check is performed on the instance: construction succeeds and
registers the instance even when no constructed instance satisfies the
`AbstractCLI` contract. -/
theorem C3_tool_resolution_amended :
    (∀ (env : Env) (f : String → CLIInstance) (pre : List String)
        (t : String) (post : List String),
      (∀ u ∈ pre, env.cliModules (cliModuleName u) = some ⟨some ⟨.ok (f u)⟩⟩) →
      env.cliModules (cliModuleName t) = none →
      generate_cli_dictionary env (pre ++ t :: post) =
        .error (.moduleNotFound (cliModuleName t))) ∧
    (∀ (env : Env) (f : String → CLIInstance) (pre : List String)
        (t : String) (post : List String),
      (∀ u ∈ pre, env.cliModules (cliModuleName u) = some ⟨some ⟨.ok (f u)⟩⟩) →
      env.cliModules (cliModuleName t) = some ⟨none⟩ →
      generate_cli_dictionary env (pre ++ t :: post) =
        .error (.attributeError (cliModuleName t) "CLI")) ∧
    (∀ (env : Env) (f : String → CLIInstance) (tools : List String),
      (∀ t ∈ tools, env.cliModules (cliModuleName t) = some ⟨some ⟨.ok (f t)⟩⟩) →
      tools.Nodup → "keys" ∉ tools →
      (∀ t ∈ tools, satisfiesContract (f t) = false) →
      ∃ dd, generate_cli_dictionary env tools = .ok dd ∧
        ∀ t ∈ tools, dictFind dd t = some (.tool (f t))) := by
  refine ⟨?_, ?_, ?_⟩
  · intro env f pre t post hpre hmod
    unfold generate_cli_dictionary
    obtain ⟨acc2, hacc⟩ :=
      buildDict_reaches env f pre [("keys", RegEntry.keysEntry (pre ++ t :: post))]
        hpre (t :: post)
    rw [hacc]
    simp [buildDict, hmod]
  · intro env f pre t post hpre hmod
    unfold generate_cli_dictionary
    obtain ⟨acc2, hacc⟩ :=
      buildDict_reaches env f pre [("keys", RegEntry.keysEntry (pre ++ t :: post))]
        hpre (t :: post)
    rw [hacc]
    simp [buildDict, hmod]
  · intro env f tools hres hnd hk _
    refine ⟨_, generate_dict_ok env f tools hres hnd hk, ?_⟩
    intro t ht
    have hne : ("keys" == t) = false := by
      rw [beq_eq_false_iff_ne]
      intro he
      exact hk (he ▸ ht)
    rw [dictFind_cons_ne _ _ _ _ hne]
    exact dictFind_map f tools t hnd ht

/-- C3 counterexample: an installation whose `CLI()` yields an instance
without a `run` capability — it does not satisfy the contract, yet registry
construction succeeds and inserts it instead of failing. -/
theorem C3_counterexample :
    generate_cli_dictionary envBadInst TOOL_NAME_LIST =
      .ok [("keys", RegEntry.keysEntry TOOL_NAME_LIST),
           ("remove-background", RegEntry.tool badInst)] ∧
    satisfiesContract badInst = false := by
  constructor
  · rfl
  · rfl

/-- C3 witness: the three branches of the amended statement at concrete
installations. -/
theorem C3_witness :
    generate_cli_dictionary envNoRB TOOL_NAME_LIST =
      .error (.moduleNotFound "cellbender.remove_background.cli") ∧
    generate_cli_dictionary envNoCLI TOOL_NAME_LIST =
      .error (.attributeError "cellbender.remove_background.cli" "CLI") ∧
    ∃ dd, generate_cli_dictionary envBadInst TOOL_NAME_LIST = .ok dd ∧
      ∀ t ∈ TOOL_NAME_LIST, dictFind dd t = some (.tool badInst) :=
  ⟨C3_tool_resolution_amended.1 envNoRB (fun _ => goodInst) [] "remove-background" []
      (by intro u hu; simp at hu) rfl,
   C3_tool_resolution_amended.2.1 envNoCLI (fun _ => goodInst) [] "remove-background" []
      (by intro u hu; simp at hu) rfl,
   C3_tool_resolution_amended.2.2 envBadInst (fun _ => badInst) TOOL_NAME_LIST
      (by
        intro t ht
        simp [TOOL_NAME_LIST] at ht
        subst ht
        rfl)
      (by decide) (by decide)
      (by
        intro t ht
        rfl)⟩

/-- C4 (amended): for an invocation selecting a recognized sub-command whose
`validate_args` returns normally, the dispatcher calls `run` exactly once,
on the tool keyed by the `tool` field of the namespace *returned by*
`validate_args`, passing that namespace, and returns exit status 0 when
`run` returns normally.  This is the tool matching the selected sub-command
exactly when the validated namespace still carries the selected name (the
dispatcher re-resolves `cli_dict[args.tool]` on the validated namespace for
the run step). -/
theorem C4_run_dispatch_amended (env : Env) (tools : List String)
    (prog t : String) (rest : List String) (p : ArgParser)
    (d : List (String × RegEntry)) (sc : SubCommand)
    (fields : List (String × String)) (inst : CLIInstance) (ns2 : Namespace)
    (hp : get_populated_argparser env tools = .ok p)
    (hd : generate_cli_dictionary env tools = .ok d)
    (hvf : p.versionFlags.contains t = false)
    (hsc : p.subcommands.find? (fun s => s.name == t) = some sc)
    (hsub : sc.subParse rest = some fields)
    (hfind : dictFind d t = some (.tool inst))
    (hhasv : inst.hasValidateArgs = true)
    (hval : inst.validate ⟨some t, fields⟩ = .ok ns2)
    (hpres : ns2.tool = some t)
    (hhasr : inst.hasRun = true)
    (hrun : inst.runTool ns2 = .ok ()) :
    main env tools (prog :: t :: rest) =
      ([.validateCall t ⟨some t, fields⟩, .runCall t ns2], .returns 0) := by
  have hlen : 1 < (prog :: t :: rest).length := by simp
  simp only [main, hp, hd, if_pos hlen]
  have hdrop : (prog :: t :: rest).drop 1 = t :: rest := rfl
  rw [hdrop]
  simp only [parse_args, hvf, Bool.false_eq_true, if_false, hsc, hsub]
  simp only [hfind, hhasv, if_true, hval, hpres, hhasr, hrun]

/-- C4 counterexample: a recognized sub-command whose `validate_args`
returns normally but rewrites the `tool` field; the dispatcher's second
registry lookup then fails with a `KeyError`, no `run` is ever called, and
the invocation does not exit 0 — contradicting the claim as stated. -/
theorem C4_counterexample :
    main envRW TOOL_NAME_LIST ["cellbender", "remove-background"] =
      ([Event.validateCall "remove-background" ⟨some "remove-background", []⟩],
        Outcome.raised (PyErr.keyError "bogus")) ∧
    (main envRW TOOL_NAME_LIST ["cellbender", "remove-background"]).1.all
      (fun e => ! e.isRunCall) = true := by
  constructor
  · decide
  · decide

/-- C4 witness: the amended statement evaluated in the conventional
installation, where `validate_args` preserves the `tool` field. -/
theorem C4_witness :
    main envGood TOOL_NAME_LIST ["cellbender", "remove-background"] =
      ([Event.validateCall "remove-background" ⟨some "remove-background", []⟩,
        Event.runCall "remove-background" ⟨some "remove-background", []⟩],
        Outcome.returns 0) :=
  C4_run_dispatch_amended envGood TOOL_NAME_LIST "cellbender"
    "remove-background" [] pGood dGood rbSub [] goodInst
    ⟨some "remove-background", []⟩
    envGood_argp envGood_dict rfl rfl rfl rfl rfl rfl rfl rfl rfl

/-- C5: for an invocation selecting a recognized sub-command whose
`validate_args` signals a `ValidationError`, the error propagates uncaught
through the dispatcher (a non-zero process exit) and no tool's `run` is
ever called. -/
theorem C5_validation_error_propagates (env : Env) (tools : List String)
    (prog t : String) (rest : List String) (p : ArgParser)
    (d : List (String × RegEntry)) (sc : SubCommand)
    (fields : List (String × String)) (inst : CLIInstance) (msg : String)
    (hp : get_populated_argparser env tools = .ok p)
    (hd : generate_cli_dictionary env tools = .ok d)
    (hvf : p.versionFlags.contains t = false)
    (hsc : p.subcommands.find? (fun s => s.name == t) = some sc)
    (hsub : sc.subParse rest = some fields)
    (hfind : dictFind d t = some (.tool inst))
    (hhasv : inst.hasValidateArgs = true)
    (hval : inst.validate ⟨some t, fields⟩ = .error (.validationError msg)) :
    main env tools (prog :: t :: rest) =
      ([.validateCall t ⟨some t, fields⟩],
        .raised (.validationError msg)) ∧
    exitsNonzero (main env tools (prog :: t :: rest)).2 = true ∧
    (main env tools (prog :: t :: rest)).1.all (fun e => ! e.isRunCall) = true := by
  have hlen : 1 < (prog :: t :: rest).length := by simp
  have hmain : main env tools (prog :: t :: rest) =
      ([.validateCall t ⟨some t, fields⟩], .raised (.validationError msg)) := by
    simp only [main, hp, hd, if_pos hlen]
    have hdrop : (prog :: t :: rest).drop 1 = t :: rest := rfl
    rw [hdrop]
    simp only [parse_args, hvf, Bool.false_eq_true, if_false, hsc, hsub]
    simp only [hfind, hhasv, if_true, hval]
  refine ⟨hmain, ?_, ?_⟩
  · rw [hmain]
    rfl
  · rw [hmain]
    rfl

/-- C5 witness: a tool whose `validate_args` rejects its input; the
dispatcher raises the validation error, exits non-zero and never runs. -/
theorem C5_witness :
    main envValErr TOOL_NAME_LIST ["cellbender", "remove-background"] =
      ([Event.validateCall "remove-background" ⟨some "remove-background", []⟩],
        Outcome.raised (PyErr.validationError "bad input")) ∧
    exitsNonzero
      (main envValErr TOOL_NAME_LIST ["cellbender", "remove-background"]).2 = true ∧
    (main envValErr TOOL_NAME_LIST ["cellbender", "remove-background"]).1.all
      (fun e => ! e.isRunCall) = true :=
  C5_validation_error_propagates envValErr TOOL_NAME_LIST "cellbender"
    "remove-background" [] pGood
    [("keys", .keysEntry TOOL_NAME_LIST), ("remove-background", .tool valErrInst)]
    rbSub [] valErrInst "bad input"
    rfl rfl rfl rfl rfl rfl rfl rfl

/-- C6: for every readable version resource with non-empty content,
`get_version` returns exactly the first line, stripped of line-ending
characters; a missing resource raises `FileNotFoundError` (the spec's
`ResourceMissing`), which surfaces unrecovered — in particular through
`get_populated_argparser`, which needs the version string for the
`--version` action. -/
theorem C6_get_version_first_line (env : Env) (tools : List String)
    (content : List Char) :
    (env.files "VERSION.txt" = some content → content ≠ [] →
      get_version env = .ok (content.takeWhile (fun c => ! isLineBoundary c))) ∧
    (env.files "VERSION.txt" = none →
      get_version env = .error (.fileNotFound "VERSION.txt") ∧
      get_populated_argparser env tools = .error (.fileNotFound "VERSION.txt")) := by
  constructor
  · intro h hne
    exact get_version_of_content env content h hne
  · intro h
    have hv : get_version env = .error (.fileNotFound "VERSION.txt") := by
      unfold get_version read
      rw [h]
    exact ⟨hv, by simp [get_populated_argparser, hv]⟩

/-- C6 witness: the conventional installation's version file
`"0.3.0\n"` yields exactly `"0.3.0"`, and the installation without a
version file fails with the resource-missing error. -/
theorem C6_witness :
    get_version envGood = .ok ['0', '.', '3', '.', '0'] ∧
    get_version envNoVersion = .error (.fileNotFound "VERSION.txt") :=
  ⟨(C6_get_version_first_line envGood TOOL_NAME_LIST versionChars).1 rfl
      (by decide),
   ((C6_get_version_first_line envNoVersion TOOL_NAME_LIST []).2 rfl).1⟩

/-- C7 (amended): when the version resource resolves and every declared
tool's `argparser` module follows the convention (appending that tool's
sub-command), `get_populated_argparser` builds a parser whose `-v`/
`--version` flags print the version and exit with status 0, whose
sub-command mechanism records the selected ToolName into the namespace
under the reserved field `tool` (`dest="tool"`), and which registers one
sub-command per declared ToolName in declaration order via that tool's
argparser module.  However the selection is *optional*, not mandatory: the
source omits `required`, argparse defaults it to `False`, and an empty
argument list parses successfully with no tool selected. -/
theorem C7_parser_surface_amended (env : Env) (tools : List String)
    (sc : String → SubCommand) (v : List Char)
    (hver : get_version env = .ok v)
    (hmods : ∀ t ∈ tools, env.argparserModules (argModuleName t) =
      some ⟨fun l => l ++ [sc t]⟩)
    (hnames : ∀ t ∈ tools, (sc t).name = t)
    (hnd : tools.Nodup)
    (hnotv : ∀ t ∈ tools, t ≠ "-v" ∧ t ≠ "--version") :
    ∃ p, get_populated_argparser env tools = .ok p ∧
      p.versionFlags = ["-v", "--version"] ∧
      p.versionString = v ∧
      p.subCfg = { title := "sub-commands"
                   description := "valid cellbender commands"
                   dest := "tool"
                   required := false } ∧
      p.subcommands = tools.map sc ∧
      (∀ rest, parse_args p ("-v" :: rest) = .versionExit v) ∧
      (∀ rest, parse_args p ("--version" :: rest) = .versionExit v) ∧
      parse_args p [] = .parsed ⟨none, []⟩ ∧
      (∀ t ∈ tools, ∀ rest fields, (sc t).subParse rest = some fields →
        parse_args p (t :: rest) = .parsed ⟨some t, fields⟩) ∧
      (∀ d, generate_cli_dictionary env tools = .ok d →
        ∀ prog rest, main env tools (prog :: "-v" :: rest) =
          ([.versionPrinted v], .sysExit 0)) := by
  have hsubs := addSubArgs_ok env sc tools [] hmods
  have hp : get_populated_argparser env tools =
      .ok { prog := "cellbender"
            description := cbDescription
            versionFlags := ["-v", "--version"]
            versionString := v
            subCfg := { title := "sub-commands"
                        description := "valid cellbender commands"
                        dest := "tool"
                        required := false }
            subcommands := tools.map sc } := by
    simp only [get_populated_argparser, hver, hsubs]
    simp
  refine ⟨_, hp, rfl, rfl, rfl, rfl, ?_, ?_, rfl, ?_, ?_⟩
  · intro rest
    rfl
  · intro rest
    rfl
  · intro t ht rest fields hsp
    rcases hnotv t ht with ⟨h1, h2⟩
    have e1 : (t == "-v") = false := by
      rw [beq_eq_false_iff_ne]
      exact h1
    have e2 : (t == "--version") = false := by
      rw [beq_eq_false_iff_ne]
      exact h2
    have hcont : (["-v", "--version"] : List String).contains t = false := by
      simp [List.contains, List.elem, e1, e2]
    have hfind := find_subcommand sc tools t hnd hnames ht
    simp only [parse_args, hcont, Bool.false_eq_true, if_false, hfind, hsp]
  · intro d hd prog rest
    have hlen : 1 < (prog :: "-v" :: rest).length := by simp
    simp only [main, hp, hd, if_pos hlen]
    rfl

/-- C7 counterexample: the parser built in the conventional installation
has `required = False` on its sub-parsers, and parsing an empty argument
list succeeds with no tool selected — the sub-command mechanism is not
mandatory-selection. -/
theorem C7_counterexample :
    (get_populated_argparser envGood TOOL_NAME_LIST).map
        (fun p => (p.subCfg.required, parse_args p [])) =
      .ok (false, .parsed ⟨none, []⟩) := rfl

/-- C7 witness: the amended statement evaluated in the conventional
installation. -/
theorem C7_witness :
    ∃ p, get_populated_argparser envGood TOOL_NAME_LIST = .ok p ∧
      p.versionFlags = ["-v", "--version"] ∧
      p.versionString = ['0', '.', '3', '.', '0'] ∧
      p.subCfg = { title := "sub-commands"
                   description := "valid cellbender commands"
                   dest := "tool"
                   required := false } ∧
      p.subcommands = TOOL_NAME_LIST.map (fun _ => rbSub) ∧
      (∀ rest, parse_args p ("-v" :: rest) = .versionExit ['0', '.', '3', '.', '0']) ∧
      (∀ rest, parse_args p ("--version" :: rest) = .versionExit ['0', '.', '3', '.', '0']) ∧
      parse_args p [] = .parsed ⟨none, []⟩ ∧
      (∀ t ∈ TOOL_NAME_LIST, ∀ rest fields, rbSub.subParse rest = some fields →
        parse_args p (t :: rest) = .parsed ⟨some t, fields⟩) ∧
      (∀ d, generate_cli_dictionary envGood TOOL_NAME_LIST = .ok d →
        ∀ prog rest, main envGood TOOL_NAME_LIST (prog :: "-v" :: rest) =
          ([.versionPrinted ['0', '.', '3', '.', '0']], .sysExit 0)) :=
  C7_parser_surface_amended envGood TOOL_NAME_LIST (fun _ => rbSub)
    ['0', '.', '3', '.', '0'] rfl
    (by
      intro t ht
      simp [TOOL_NAME_LIST] at ht
      subst ht
      rfl)
    (by
      intro t ht
      simp [TOOL_NAME_LIST] at ht
      subst ht
      rfl)
    (by decide) (by decide)

/-- C8: building the parser twice and building the registry twice from the
same declared tool-name sequence (in the same environment) yields
structurally equivalent results both times: the same sub-command names and
flags for the parser, and the same key sequence and instance type names for
the registry. -/
theorem C8_build_idempotent (env : Env) (tools : List String)
    (p1 p2 : ArgParser) (d1 d2 : List (String × RegEntry))
    (h1 : get_populated_argparser env tools = .ok p1)
    (h2 : get_populated_argparser env tools = .ok p2)
    (h3 : generate_cli_dictionary env tools = .ok d1)
    (h4 : generate_cli_dictionary env tools = .ok d2) :
    p1.subcommands.map (fun s => (s.name, s.flags)) =
      p2.subcommands.map (fun s => (s.name, s.flags)) ∧
    d1.map (fun e => (e.1, entryTypeName e.2)) =
      d2.map (fun e => (e.1, entryTypeName e.2)) := by
  have hp : p1 = p2 := Except.ok.inj (h1.symm.trans h2)
  have hd : d1 = d2 := Except.ok.inj (h3.symm.trans h4)
  subst hp
  subst hd
  exact ⟨rfl, rfl⟩

/-- C8 witness: two builds in the conventional installation agree. -/
theorem C8_witness :
    pGood.subcommands.map (fun s => (s.name, s.flags)) =
      pGood.subcommands.map (fun s => (s.name, s.flags)) ∧
    dGood.map (fun e => (e.1, entryTypeName e.2)) =
      dGood.map (fun e => (e.1, entryTypeName e.2)) :=
  C8_build_idempotent envGood TOOL_NAME_LIST pGood pGood dGood dGood
    envGood_argp envGood_argp envGood_dict envGood_dict

/-- C9: `run_cellbender_from_python` places the hardcoded string
`'remove-background'` only in the program-name slot (position 0 of
`sys.argv`) and dispatches on exactly `args_list` as the trailing
arguments; the dispatcher's behaviour is independent of the program-name
slot, so the tool dispatched is determined by the first element of
`args_list`, and an empty `args_list` prints help without running any
tool. -/
theorem C9_programmatic_entry (env : Env) (tools : List String)
    (argsList : List String) :
    run_cellbender_from_python env tools argsList =
      main env tools ("remove-background" :: argsList) ∧
    (∀ prog, main env tools (prog :: argsList) =
      run_cellbender_from_python env tools argsList) ∧
    (argsList = [] → ∀ (p : ArgParser) (d : List (String × RegEntry)),
      get_populated_argparser env tools = .ok p →
      generate_cli_dictionary env tools = .ok d →
      run_cellbender_from_python env tools argsList =
        ([.helpPrinted], .returns 0)) := by
  refine ⟨rfl, ?_, ?_⟩
  · intro prog
    show main env tools (prog :: argsList) =
      main env tools ("remove-background" :: argsList)
    simp only [main, List.length_cons, List.drop_succ_cons, List.drop_zero]
  · rintro rfl p d hp hd
    show main env tools ["remove-background"] = ([.helpPrinted], .returns 0)
    simp [main, hp, hd]

/-- C9 witness: in the conventional installation, the programmatic entry
with an empty argument list behaves like `main` under any program name and
prints help without running any tool. -/
theorem C9_witness :
    run_cellbender_from_python envGood TOOL_NAME_LIST [] =
      main envGood TOOL_NAME_LIST ["remove-background"] ∧
    main envGood TOOL_NAME_LIST ["some-other-name"] =
      run_cellbender_from_python envGood TOOL_NAME_LIST [] ∧
    run_cellbender_from_python envGood TOOL_NAME_LIST [] =
      ([Event.helpPrinted], Outcome.returns 0) :=
  ⟨(C9_programmatic_entry envGood TOOL_NAME_LIST []).1,
   (C9_programmatic_entry envGood TOOL_NAME_LIST []).2.1 "some-other-name",
   (C9_programmatic_entry envGood TOOL_NAME_LIST []).2.2 rfl pGood dGood
     envGood_argp envGood_dict⟩

/-- C10: if the version resource exists and is readable but its content has
no lines (empty content), `get_version` raises `IndexError` instead of
returning a string; it returns a first line only for non-empty content. -/
theorem C10_empty_version_errors (env : Env) (content : List Char)
    (hfile : env.files "VERSION.txt" = some content) :
    (content = [] → get_version env = .error PyErr.indexError) ∧
    (∀ l, get_version env = .ok l → content ≠ []) := by
  have hempty : content = [] → get_version env = .error PyErr.indexError := by
    rintro rfl
    unfold get_version read
    rw [hfile]
    rfl
  refine ⟨hempty, ?_⟩
  intro l hl hc
  rw [hempty hc] at hl
  cases hl

/-- C10 witness: an installation whose version file is empty makes
`get_version` raise `IndexError`. -/
theorem C10_witness :
    get_version envEmptyVersion = .error PyErr.indexError :=
  (C10_empty_version_errors envEmptyVersion [] rfl).1 rfl

end Cellbender
